import Mathlib

/-!
Verification of the SwarmShield autonomous network-defense pipeline
(scout / analyzer / responder / evolver agents) against its
natural-language specification.

Shallow-embedding conventions used throughout this file:

* Python floats are modelled as exact rationals (`ℚ`); numeric literals
  such as 0.60 become 6/10.
* Randomness (`random.gauss`, `random.random`) is modelled by passing the
  stream of drawn values explicitly: every theorem quantifies over all
  possible draw sequences.  When a finite modelled stream is exhausted the
  draw defaults to a value that makes the guarded event not fire, which is
  one particular draw sequence and therefore sound under that
  quantification.
* `round(x, d)` (CPython bankers rounding, idealised to exact decimal
  round-half-to-even) is modelled by `roundTo d`.
* Dict-shaped records become structures; `dict.get(k, default)` on a key
  that is always present becomes a plain field access.
* File/network side effects (iptables calls, log appends, HTTP reports)
  are outside the embedded decision logic; the embedded functions return
  the decision data that the source computes before/independently of those
  effects.
-/

/-- Nearest integer to `q`, ties to the even integer (the rounding CPython
applies inside `round`). -/
def roundHalfEven (q : ℚ) : ℤ :=
  if q - ⌊q⌋ < 1/2 then ⌊q⌋
  else if 1/2 < q - ⌊q⌋ then ⌊q⌋ + 1
  else if ⌊q⌋ % 2 = 0 then ⌊q⌋ else ⌊q⌋ + 1

/-- `round(q, d)` of CPython, idealised over exact rationals. -/
def roundTo (d : ℕ) (q : ℚ) : ℚ :=
  (roundHalfEven (q * 10 ^ d) : ℚ) / 10 ^ d

/-! ## Scout agent (src/swarmshield/src/swarmshield/agents/scout.py)

Detection thresholds, Monte-Carlo threat estimation, rolling trend and
alert-level classification. -/

/-- scout.py line 28: `CONFIDENCE_THRESHOLD = 0.60`. -/
def CONFIDENCE_THRESHOLD : ℚ := 6/10

/-- scout.py line 39: `EARLY_WARNING_THRESHOLD = 0.40`. -/
def EARLY_WARNING_THRESHOLD : ℚ := 4/10

/-- Per-source traffic statistics (the `stats` dict computed by
`_compute_stats`; `_monte_carlo_estimate` reads these five keys with
default 0, so a total record is an exact model). `window_seconds` is not
read by any embedded consumer and is omitted. -/
structure TrafficStats where
  packets_per_second : ℚ
  bytes_per_second : ℚ
  unique_dest_ips : ℚ
  syn_count : ℚ
  port_entropy : ℚ
deriving DecidableEq

/-- The five detection thresholds (`_DEFAULT_THRESHOLDS` keys, scout.py
lines 20-26; also the first five genes of an evolver genome). -/
structure Thresholds where
  ddos_pps_threshold : ℚ
  ddos_syn_threshold : ℚ
  port_scan_unique_ip_thresh : ℚ
  port_scan_entropy_threshold : ℚ
  exfil_bps_threshold : ℚ
deriving DecidableEq

/-- scout.py lines 20-26. -/
def DEFAULT_THRESHOLDS : Thresholds :=
  { ddos_pps_threshold := 500
    ddos_syn_threshold := 300
    port_scan_unique_ip_thresh := 20
    port_scan_entropy_threshold := 35/10
    exfil_bps_threshold := 500000 }

/-- The five multiplicative Gaussian draws (`rng.gauss(0, 0.10)`) one
Monte-Carlo trial makes, in source order pps, bps, unique, syns, ent
(scout.py lines 232-236). -/
structure TrialNoise where
  g_pps : ℚ
  g_bps : ℚ
  g_unique : ℚ
  g_syns : ℚ
  g_ent : ℚ
deriving DecidableEq

/-- scout.py lines 229-230: `noisy(v) = max(0.0, v + v * rng.gauss(0, 0.10))`
with the drawn factor passed explicitly. -/
def noisy (v g : ℚ) : ℚ := max 0 (v + v * g)

/-- scout.py line 238: the flood rule of one trial. -/
def ddos_fires (s : TrafficStats) (th : Thresholds) (tn : TrialNoise) : Bool :=
  noisy s.packets_per_second tn.g_pps ≥ th.ddos_pps_threshold ∨
    noisy s.syn_count tn.g_syns ≥ th.ddos_syn_threshold

/-- scout.py line 240: the scan rule of one trial. -/
def scan_fires (s : TrafficStats) (th : Thresholds) (tn : TrialNoise) : Bool :=
  noisy s.unique_dest_ips tn.g_unique ≥ th.port_scan_unique_ip_thresh ∨
    noisy s.port_entropy tn.g_ent ≥ th.port_scan_entropy_threshold

/-- scout.py line 242: the exfiltration rule of one trial. -/
def exfil_fires (s : TrafficStats) (th : Thresholds) (tn : TrialNoise) : Bool :=
  noisy s.bytes_per_second tn.g_bps ≥ th.exfil_bps_threshold

/-- Result of `_monte_carlo_estimate` (scout.py lines 271-278). -/
structure MCResult where
  ddos_confidence : ℚ
  port_scan_confidence : ℚ
  exfiltration_confidence : ℚ
  top_threat : String
  top_confidence : ℚ
  recommended_action : String
deriving DecidableEq

/-- scout.py lines 263-269: the `_THREAT_ACTIONS` map with default
"monitor". -/
def threat_action (t : String) : String :=
  if t = "ddos" then "block"
  else if t = "port_scan" then "redirect_to_honeypot"
  else if t = "exfiltration" then "quarantine"
  else if t = "normal" then "monitor"
  else "monitor"

/-- scout.py lines 249-255: `max(scores, key=scores.get)` over the dict
built in insertion order ddos, port_scan, exfiltration.  Python `max`
keeps the earliest element on ties, replacing only on a strictly greater
value. -/
def top_of_scores (d s e : ℚ) : String × ℚ :=
  if s > d then (if e > s then ("exfiltration", e) else ("port_scan", s))
  else (if e > d then ("exfiltration", e) else ("ddos", d))

/-- scout.py lines 196-278, `_monte_carlo_estimate`.  The number of trials
is the length of the supplied draw list (`n_simulations` in the source,
default 1000); per-category confidence is the fraction of trials whose
rule fired; a top confidence below 0.10 collapses the result to
"normal" with confidence 0. -/
def monte_carlo_estimate (s : TrafficStats) (th : Thresholds)
    (noise : List TrialNoise) : MCResult :=
  let n : ℚ := noise.length
  let ddos_conf : ℚ := (noise.countP (ddos_fires s th)) / n
  let scan_conf : ℚ := (noise.countP (scan_fires s th)) / n
  let exfil_conf : ℚ := (noise.countP (exfil_fires s th)) / n
  let top := top_of_scores ddos_conf scan_conf exfil_conf
  if top.2 < 1/10 then
    { ddos_confidence := ddos_conf
      port_scan_confidence := scan_conf
      exfiltration_confidence := exfil_conf
      top_threat := "normal"
      top_confidence := 0
      recommended_action := threat_action "normal" }
  else
    { ddos_confidence := ddos_conf
      port_scan_confidence := scan_conf
      exfiltration_confidence := exfil_conf
      top_threat := top.1
      top_confidence := top.2
      recommended_action := threat_action top.1 }

/-- One belief-history entry as `_compute_trend` reads it (scout.py lines
382-404): a per-tick Monte-Carlo snapshot with its `top_confidence` and
`tick_time`. -/
structure HistEntry where
  top_confidence : ℚ
  tick_time : ℚ
deriving DecidableEq

/-- Result of `_compute_trend` (scout.py lines 392-430). -/
structure TrendResult where
  trend_direction : String
  confidence_slope : ℚ
  predicted_confidence : ℚ
deriving DecidableEq

/-- scout.py lines 382-430, `_compute_trend`: linear regression of
confidence over tick time, extrapolated one average tick ahead and
clamped to [0, 1]; empty and single-entry histories return early. -/
def compute_trend (history : List HistEntry) : TrendResult :=
  match history with
  | [] => { trend_direction := "stable", confidence_slope := 0, predicted_confidence := 0 }
  | [h] => { trend_direction := "stable", confidence_slope := 0,
             predicted_confidence := h.top_confidence }
  | _ :: _ :: _ =>
    let xs := history.map HistEntry.tick_time
    let ys := history.map HistEntry.top_confidence
    let n : ℚ := history.length
    let xm := xs.sum / n
    let ym := ys.sum / n
    let denom := (xs.map (fun x => (x - xm) ^ 2)).sum
    let slope := if denom ≠ 0 then
        ((xs.zip ys).map (fun p => (p.1 - xm) * (p.2 - ym))).sum / denom
      else 0
    let tick_gap := (xs.getLastD 0 - xs.headD 0) / max (n - 1) 1
    let next_tick := xs.getLastD 0 + tick_gap
    let predicted := max 0 (min 1 (ym + slope * (next_tick - xm)))
    let direction := if slope > 5/1000 then "rising"
      else if slope < -(5/1000) then "falling" else "stable"
    { trend_direction := direction
      confidence_slope := roundTo 6 slope
      predicted_confidence := roundTo 4 predicted }

/-- scout.py lines 433-456, `_rolling_alert_level`: map (current,
predicted) confidence to an alert level, first matching row wins. -/
def rolling_alert_level (current_conf predicted_conf : ℚ)
    (confirmed_threshold : ℚ := CONFIDENCE_THRESHOLD)
    (early_warning_threshold : ℚ := EARLY_WARNING_THRESHOLD) : String :=
  if current_conf ≥ confirmed_threshold then "confirmed"
  else if predicted_conf ≥ confirmed_threshold then "early_warning"
  else if predicted_conf ≥ early_warning_threshold then "elevated"
  else "normal"

/-- Row 1 of the alert decision table: confirmed. -/
def alert_confirmed_cond (cur _pred ct _ewt : ℚ) : Prop := cur ≥ ct

/-- Row 2 of the alert decision table: early warning (current below the
confirmed threshold, predicted at or above it). -/
def alert_early_cond (cur pred ct _ewt : ℚ) : Prop := cur < ct ∧ pred ≥ ct

/-- Row 3 of the alert decision table, read in priority order (neither of
the earlier rows matched): elevated. -/
def alert_elevated_cond (cur pred ct ewt : ℚ) : Prop :=
  ¬ alert_confirmed_cond cur pred ct ewt ∧ ¬ alert_early_cond cur pred ct ewt ∧
    pred ≥ ewt

/-- Row 4 of the alert decision table: normal (no earlier row matched). -/
def alert_normal_cond (cur pred ct ewt : ℚ) : Prop :=
  ¬ alert_confirmed_cond cur pred ct ewt ∧ ¬ alert_early_cond cur pred ct ewt ∧
    ¬ (pred ≥ ewt)

/-! ## Responder agent (src/swarmshield/src/swarmshield/agents/responder.py)

Pre-emptive safety gate and enforcement decision engine. -/

/-- responder.py line 65, environment default 0.40. -/
def PREEMPTIVE_CONFIDENCE_GATE : ℚ := 4/10

/-- responder.py line 66, environment default 0.60. -/
def CONFIRMED_CONFIDENCE_GATE : ℚ := 6/10

/-- responder.py lines 391-443, `_preemptive_safety_gate`: the strict
four-condition gate applied to every pre-emptive action request, returning
`(approved, reason)`.  The two gate constants are module-level
configuration (environment-overridable) and are passed as parameters; the
interpolated numeric values inside the source reason strings are elided.
`ip_address` is accepted (as in the source signature) but not read. -/
def preemptive_safety_gate (_ip_address recommended : String)
    (current_conf predicted_conf : ℚ) (alert_level : String)
    (pre_gate : ℚ := PREEMPTIVE_CONFIDENCE_GATE)
    (conf_gate : ℚ := CONFIRMED_CONFIDENCE_GATE) : Bool × String :=
  if ¬ (recommended = "rate_limit" ∨ recommended = "elevated_monitor") then
    (false, "action is not a pre-emptive-safe action - use the verdict path for destructive actions")
  else if alert_level ≠ "early_warning" then
    (false, "alert_level does not qualify for pre-emptive action - must be early_warning")
  else if predicted_conf < pre_gate then
    (false, "predicted confidence is below gate - not yet a credible rising threat")
  else if current_conf ≥ conf_gate then
    (false, "current confidence is at or above confirmed threshold - use the verdict endpoint instead")
  else
    (true, "all pre-emptive safety gates passed")

/-- responder.py lines 450-494, `decide_and_act`: the action-selection
logic.  The source reads `recommended_action` (default "monitor") and
`predicted_attack_type` (default "Normal") from the verdict dict, picks a
branch, calls the matching enforcement function and returns
`(action, success)`; `success` comes from the external iptables call, so
the embedding returns the selected action string. -/
def decide_action (recommended attack_type : String) : String :=
  if recommended = "block" ∨ attack_type = "DDoS" ∨ attack_type = "DoS" ∨
      attack_type = "Bot" then "block"
  else if recommended = "redirect_to_honeypot" ∨ attack_type = "PortScan" then
    "redirect_to_honeypot"
  else if recommended = "quarantine" ∨ attack_type = "Exfiltration" ∨
      attack_type = "Infiltration" then "quarantine"
  else if recommended = "rate_limit" then "rate_limit"
  else "monitor"

/-! ## Evolver agent (src/swarmshield/src/swarmshield/agents/evolver.py)

Genome bounds, clamping, the registered mutation operator, outcome
recording and the fitness function. -/

/-- evolver.py lines 75-82, `GENE_BOUNDS`. -/
def GENE_BOUNDS : List (ℚ × ℚ) :=
  [(50, 2000), (20, 1000), (2, 100), (1, 6), (10000, 2000000), (3/10, 9/10)]

/-- evolver.py line 84, `DEFAULT_GENOME`. -/
def DEFAULT_GENOME : List ℚ := [500, 300, 20, 35/10, 500000, 6/10]

/-- evolver.py lines 230-232, `_clamp_genome`: clamp each gene into its
declared [lo, hi] interval (genomes have one gene per bounds pair). -/
def clamp_genome (genome : List ℚ) : List ℚ :=
  (GENE_BOUNDS.zip genome).map (fun p => max p.1.1 (min p.1.2 p.2))

/-- Whether every gene of `genome` lies within its declared bounds pair. -/
def genome_in_bounds (genome : List ℚ) : Bool :=
  (GENE_BOUNDS.zip genome).all (fun p => decide (p.1.1 ≤ p.2 ∧ p.2 ≤ p.1.2))

/-- The mutation operator registered by `_setup_deap` (evolver.py lines
291-292): DEAP `mutGaussian` adds an independent Gaussian draw to each
gene selected by the per-gene `indpb` coin flip; no bounds decorator is
registered, so the result is NOT clamped.  `sel` models the coin flips and
`noise` the Gaussian draws. -/
def mut_gaussian (genome : List ℚ) (sel : List Bool) (noise : List ℚ) : List ℚ :=
  (genome.zip sel).zipWith (fun p n => if p.2 then p.1 + n else p.1) noise

/-- evolver.py line 222, `_genome_to_thresholds`: the first five genes,
in `GENE_NAMES` order. -/
def genome_to_thresholds (genome : List ℚ) : Thresholds :=
  { ddos_pps_threshold := genome.getD 0 0
    ddos_syn_threshold := genome.getD 1 0
    port_scan_unique_ip_thresh := genome.getD 2 0
    port_scan_entropy_threshold := genome.getD 3 0
    exfil_bps_threshold := genome.getD 4 0 }

/-- evolver.py lines 226-227, `_confidence_from_genome`: the sixth gene. -/
def confidence_from_genome (genome : List ℚ) : ℚ := genome.getD 5 0

/-- evolver.py line 370 (`Mahoraga.record_outcome`): ground truth is
inferred from the enforcement action alone,
`action_taken in ("block", "redirect_to_honeypot", "quarantine")`. -/
def infer_was_threat (action_taken : String) : Bool :=
  action_taken = "block" ∨ action_taken = "redirect_to_honeypot" ∨
    action_taken = "quarantine"

/-- The persisted outcome record built by `Mahoraga.record_outcome`
(evolver.py lines 371-380); the wall-clock timestamp is elided. -/
structure OutcomeRecord where
  source_ip : String
  stats : TrafficStats
  attack_type : String
  original_confidence : ℚ
  action_taken : String
  enforcement_success : Bool
  was_threat : Bool
deriving DecidableEq

/-- evolver.py lines 354-390, `Mahoraga.record_outcome`: assemble the
record appended to the outcome log, with `was_threat` inferred from the
action taken. -/
def record_outcome (source_ip : String) (stats : TrafficStats)
    (attack_type : String) (confidence : ℚ) (action_taken : String)
    (enforcement_success : Bool := true) : OutcomeRecord :=
  { source_ip := source_ip
    stats := stats
    attack_type := attack_type
    original_confidence := confidence
    action_taken := action_taken
    enforcement_success := enforcement_success
    was_threat := infer_was_threat action_taken }

/-- One replayed outcome as `_evaluate_genome` reads it: the `stats` dict
(absent or falsy ⇒ the outcome is skipped, modelled by `none`) and the
inferred `was_threat` flag (default `False`). -/
structure OutcomeSample where
  stats : Option TrafficStats
  was_threat : Bool

/-- evolver.py line 254: the binary detection decision a candidate genome
makes on one outcome: top confidence strictly above the genome confidence
gate and top category not "normal". -/
def genome_detected (genome : List ℚ) (s : TrafficStats)
    (noise : List TrialNoise) : Bool :=
  let mc := monte_carlo_estimate s (genome_to_thresholds genome) noise
  mc.top_confidence > confidence_from_genome genome ∧ mc.top_threat ≠ "normal"

/-- Whether the genome detection on one outcome (paired with the draws its
Monte-Carlo replay makes) agrees with the outcome's inferred ground
truth; outcomes with no stats are skipped by the source loop. -/
def outcome_matches (genome : List ℚ) (p : OutcomeSample × List TrialNoise) : Bool :=
  match p.1.stats with
  | none => true
  | some s => genome_detected genome s p.2 = p.1.was_threat

/-- Whether an outcome carries a (truthy) stats dict. -/
def outcome_has_stats (p : OutcomeSample × List TrialNoise) : Bool :=
  p.1.stats.isSome

/-- evolver.py line 266: the `1e-9` denominator guard. -/
def FIT_EPS : ℚ := 1/1000000000

/-- The confusion-matrix tally of `_evaluate_genome` (evolver.py lines
247-264) as (tp, fn, tn, fp); each outcome is replayed through
`monte_carlo_estimate` with its own draw list, outcomes without stats are
skipped. -/
def tally_outcomes (genome : List ℚ) :
    List (OutcomeSample × List TrialNoise) → ℕ × ℕ × ℕ × ℕ
  | [] => (0, 0, 0, 0)
  | p :: rest =>
    let t := tally_outcomes genome rest
    match p.1.stats with
    | none => t
    | some s =>
      let d := genome_detected genome s p.2
      let w := p.1.was_threat
      if w ∧ d then (t.1 + 1, t.2.1, t.2.2.1, t.2.2.2)
      else if w ∧ ¬ d then (t.1, t.2.1 + 1, t.2.2.1, t.2.2.2)
      else if ¬ w ∧ ¬ d then (t.1, t.2.1, t.2.2.1 + 1, t.2.2.2)
      else (t.1, t.2.1, t.2.2.1, t.2.2.2 + 1)

/-- evolver.py lines 235-266, `_evaluate_genome`:
fitness = (TP + TN) / (TP + TN + 2 FP + FN + 1e-9). -/
def evaluate_genome (genome : List ℚ)
    (outcomes : List (OutcomeSample × List TrialNoise)) : ℚ :=
  let t := tally_outcomes genome outcomes
  ((t.1 + t.2.2.1 : ℕ) : ℚ) /
    (((t.1 + t.2.2.1 : ℕ) : ℚ) + 2 * ((t.2.2.2 : ℕ) : ℚ) + ((t.2.1 : ℕ) : ℚ) + FIT_EPS)

/-! ## Analyzer agent (src/swarmshield/src/swarmshield/agents/analyzer.py)

Attack-graph propagation simulation and risk aggregation. -/

/-- analyzer.py lines 15-16. -/
def RISK_HIGH : ℚ := 7/10

/-- analyzer.py line 17. -/
def RISK_MEDIUM : ℚ := 4/10

/-- An attack-graph node (analyzer.py `_build_nodes`): a unique source
address with its aggregated threat type and confidence. -/
structure GraphNode where
  ip : String
  threat_type : String
  confidence : ℚ
deriving DecidableEq

/-- An attack-graph edge (analyzer.py `_build_edges`). -/
structure GraphEdge where
  src : String
  dst : String
  threat_type : String
  weight : ℚ
deriving DecidableEq

/-- The adjacency entries for `ip` (analyzer.py lines 116-119): each edge
contributes both directions, in edge order. -/
def adj_of (edges : List GraphEdge) (ip : String) : List (String × ℚ) :=
  (edges.map (fun e =>
    (if e.src = ip then [(e.dst, e.weight)] else []) ++
      (if e.dst = ip then [(e.src, e.weight)] else []))).flatten

/-- The inner neighbour loop of one simulation step (analyzer.py lines
147-152): for each not-yet-visited neighbour draw `(g, r)` (jitter and
uniform) and visit it when `r < min(1, weight + g)`; visited and
next-frontier grow together.  An exhausted draw list defaults to the
non-propagating draw (0, 1). -/
def visit_neighbors (visited next_acc : List String)
    (nbrs : List (String × ℚ)) (noise : List (ℚ × ℚ)) :
    List String × List String × List (ℚ × ℚ) :=
  match nbrs with
  | [] => (visited, next_acc, noise)
  | nb :: rest =>
    if nb.1 ∈ visited then visit_neighbors visited next_acc rest noise
    else
      match noise with
      | [] => visit_neighbors visited next_acc rest []
      | (g, r) :: ns =>
        if r < min 1 (nb.2 + g) then
          visit_neighbors (visited ++ [nb.1]) (next_acc ++ [nb.1]) rest ns
        else visit_neighbors visited next_acc rest ns

/-- One pass over the whole frontier (analyzer.py lines 145-153),
returning the grown visited set, the next frontier and the remaining
draws (the three components of processing each frontier node in order). -/
def expand_frontier (edges : List GraphEdge) (visited frontier : List String)
    (noise : List (ℚ × ℚ)) : List String × List String × List (ℚ × ℚ) :=
  match frontier with
  | [] => (visited, [], noise)
  | node :: rest =>
    ((expand_frontier edges (visit_neighbors visited [] (adj_of edges node) noise).1
        rest (visit_neighbors visited [] (adj_of edges node) noise).2.2).1,
      (visit_neighbors visited [] (adj_of edges node) noise).2.1 ++
        (expand_frontier edges (visit_neighbors visited [] (adj_of edges node) noise).1
          rest (visit_neighbors visited [] (adj_of edges node) noise).2.2).2.1,
      (expand_frontier edges (visit_neighbors visited [] (adj_of edges node) noise).1
        rest (visit_neighbors visited [] (adj_of edges node) noise).2.2).2.2)

/-- The trial while-loop (analyzer.py lines 144-156): expand the frontier
(one pass producing new visited / next frontier / remaining draws), count
the step, and stop when the frontier empties or the circuit breaker
(`steps > len(nodes)`) trips; returns (steps, visited). -/
def sim_loop (edges : List GraphEdge) (n_nodes : ℕ)
    (visited frontier : List String) (steps : ℕ)
    (noise : List (ℚ × ℚ)) : ℕ × List String :=
  if frontier.isEmpty then (steps, visited)
  else if h : n_nodes < steps + 1 then
    (steps + 1, (expand_frontier edges visited frontier noise).1)
  else
    sim_loop edges n_nodes (expand_frontier edges visited frontier noise).1
      ((expand_frontier edges visited frontier noise).2.1) (steps + 1)
      ((expand_frontier edges visited frontier noise).2.2)
termination_by n_nodes + 1 - steps
decreasing_by omega

/-- One per-trial result dict (analyzer.py lines 158-164); the running
trial index is a label and is elided, and `compromised_ips` keeps visit
order instead of being sorted. -/
structure TrialResult where
  entry_node : String
  nodes_reached : ℕ
  path_length : ℕ
  compromised_ips : List String
deriving DecidableEq

/-- One simulation trial from a chosen entry node (analyzer.py lines
139-164). -/
def run_trial (nodes : List GraphNode) (edges : List GraphEdge)
    (entry : String) (noise : List (ℚ × ℚ)) : TrialResult :=
  let t := sim_loop edges nodes.length [entry] [entry] 0 noise
  { entry_node := entry
    nodes_reached := t.2.length
    path_length := t.1
    compromised_ips := t.2 }

/-- The accumulation scan of `pick_entry` (analyzer.py lines 128-133):
first ip whose running confidence sum reaches `r`, else the fallback
`ip_list[-1]`. -/
def pick_entry_go (fallback : String) :
    List (String × ℚ) → ℚ → ℚ → String
  | [], _, _ => fallback
  | p :: rest, r, acc =>
    if r ≤ acc + p.2 then p.1 else pick_entry_go fallback rest r (acc + p.2)

/-- analyzer.py lines 125-133, `pick_entry`: confidence-weighted entry
selection; `total = sum(conf_list) or len(ip_list)` and `r = u * total`
with `u` the uniform draw. -/
def pick_entry (ips : List String) (confs : List ℚ) (u : ℚ) : String :=
  let total : ℚ := if confs.sum = 0 then (ips.length : ℚ) else confs.sum
  pick_entry_go (ips.getLastD "") (ips.zip confs) (u * total) 0

/-- analyzer.py lines 96-166, `_run_propagation_simulation`: one
`TrialResult` per supplied per-trial draw pair (entry-selection uniform,
step-draw list); the trial count `n_trials` (default 500) is the length of
the supplied list.  Empty node list returns no trials. -/
def run_propagation_simulation (nodes : List GraphNode)
    (edges : List GraphEdge) (rnd : List (ℚ × List (ℚ × ℚ))) :
    List TrialResult :=
  if nodes.isEmpty then []
  else
    rnd.map (fun tr =>
      run_trial nodes edges
        (pick_entry (nodes.map GraphNode.ip) (nodes.map GraphNode.confidence) tr.1)
        tr.2)

/-- Both endpoints of every edge name a node of the graph (what makes a
node/edge pair an attack graph; `_build_edges` only ever connects members
of the node list). -/
def edges_well_formed (nodes : List GraphNode) (edges : List GraphEdge) : Bool :=
  edges.all (fun e =>
    decide (e.src ∈ nodes.map GraphNode.ip ∧ e.dst ∈ nodes.map GraphNode.ip))

/-- Whether a trial respected the step cap `n`. -/
def path_len_ok (n : ℕ) (r : TrialResult) : Bool := r.path_length ≤ n

/-- The risk-assessment fields computed by `_aggregate_risk` (analyzer.py
lines 187-255) that feed the risk decision; the advisory
`top_threats` / `recommendations` / `timestamp` outputs are elided. -/
structure RiskAssessment where
  risk_level : String
  risk_score : ℚ
  avg_spread : ℚ
  max_spread : ℚ
deriving DecidableEq

/-- analyzer.py lines 169-255, `_aggregate_risk`: spreads are fractions of
nodes reached per trial; risk_score = round(min(1, 0.6 max_conf +
0.4 avg_spread), 4); risk level thresholds 0.70 / 0.40 / >0 / 0. -/
def aggregate_risk (nodes : List GraphNode) (sim_results : List TrialResult) :
    RiskAssessment :=
  match nodes with
  | [] => { risk_level := "none", risk_score := 0, avg_spread := 0, max_spread := 0 }
  | n0 :: rest =>
    let total_nodes : ℚ := ((max nodes.length 1 : ℕ) : ℚ)
    let spreads := sim_results.map (fun r => (r.nodes_reached : ℚ) / total_nodes)
    let avg_spread : ℚ :=
      match sim_results with
      | [] => 0
      | _ :: _ => spreads.sum / (spreads.length : ℚ)
    let max_spread : ℚ :=
      match spreads with
      | [] => 0
      | sp0 :: spt => spt.foldl max sp0
    let max_conf := rest.foldl (fun a nd => max a nd.confidence) n0.confidence
    let risk_score := roundTo 4 (min 1 (max_conf * (6/10) + avg_spread * (4/10)))
    let risk_level :=
      if risk_score ≥ RISK_HIGH then "high"
      else if risk_score ≥ RISK_MEDIUM then "medium"
      else if risk_score > 0 then "low"
      else "none"
    { risk_level := risk_level
      risk_score := risk_score
      avg_spread := roundTo 4 avg_spread
      max_spread := roundTo 4 max_spread }

/-- Whether a graph node carries confidence exactly 0. -/
def node_conf_zero (n : GraphNode) : Bool := n.confidence = 0

/-! ## Concrete fixtures used by witnesses and counterexamples -/

/-- A belief-history entry lies in the [0, 1] confidence band the data
model guarantees for Monte-Carlo confidences. -/
def hist_conf_in_range (e : HistEntry) : Bool :=
  decide (0 ≤ e.top_confidence ∧ e.top_confidence ≤ 1)

/-- The all-zero statistics snapshot. -/
def zero_stats : TrafficStats :=
  { packets_per_second := 0, bytes_per_second := 0, unique_dest_ips := 0
    syn_count := 0, port_entropy := 0 }

/-- The all-zero Monte-Carlo trial draw. -/
def zero_trial_noise : TrialNoise :=
  { g_pps := 0, g_bps := 0, g_unique := 0, g_syns := 0, g_ent := 0 }

/-- One recorded outcome with all-zero stats that was not a threat, paired
with a single-trial draw list for its fitness replay. -/
def c8_pairs : List (OutcomeSample × List TrialNoise) :=
  [({ stats := some zero_stats, was_threat := false }, [zero_trial_noise])]

/-- A three-entry rising belief history. -/
def c10_history : List HistEntry :=
  [{ top_confidence := 1/2, tick_time := 0 },
   { top_confidence := 6/10, tick_time := 5 },
   { top_confidence := 7/10, tick_time := 10 }]

/-- A three-node attack graph whose edges form a cycle. -/
def c6_nodes : List GraphNode :=
  [{ ip := "10.0.0.1", threat_type := "DDoS", confidence := 9/10 },
   { ip := "10.0.0.2", threat_type := "DDoS", confidence := 8/10 },
   { ip := "10.0.0.3", threat_type := "DDoS", confidence := 7/10 }]

/-- The cyclic edge set over `c6_nodes`. -/
def c6_edges : List GraphEdge :=
  [{ src := "10.0.0.1", dst := "10.0.0.2", threat_type := "DDoS", weight := 85/100 },
   { src := "10.0.0.2", dst := "10.0.0.3", threat_type := "DDoS", weight := 75/100 },
   { src := "10.0.0.3", dst := "10.0.0.1", threat_type := "DDoS", weight := 8/10 }]

/-- One trial's randomness over `c6_nodes`: entry draw 0 and step draws
that always propagate. -/
def c6_rnd : List (ℚ × List (ℚ × ℚ)) :=
  [(0, [(0, 0), (0, 0), (0, 0), (0, 0), (0, 0), (0, 0)])]

/-! ## Shared helper lemmas -/

/-- Rounding a nonnegative rational gives a nonnegative integer. -/
theorem roundHalfEven_nonneg (q : ℚ) (h : 0 ≤ q) : 0 ≤ roundHalfEven q := by
  unfold roundHalfEven
  have hf : (0 : ℤ) ≤ ⌊q⌋ := Int.floor_nonneg.mpr h
  split_ifs <;> omega

/-- Rounding never overshoots an integer upper bound. -/
theorem roundHalfEven_le_of_le (q : ℚ) (B : ℤ) (h : q ≤ B) :
    roundHalfEven q ≤ B := by
  unfold roundHalfEven
  have hf : ⌊q⌋ ≤ B := by
    rw [← Int.floor_intCast (α := ℚ) B]
    exact Int.floor_le_floor h
  have hfl : (⌊q⌋ : ℚ) ≤ q := Int.floor_le q
  split_ifs with h1 h2 h3
  · exact hf
  · have hb : (⌊q⌋ : ℚ) < (B : ℚ) := by linarith
    have := Int.cast_lt.mp hb
    omega
  · exact hf
  · have hr : (1 : ℚ)/2 = q - ⌊q⌋ := le_antisymm (not_lt.mp h1) (not_lt.mp h2)
    have hb : (⌊q⌋ : ℚ) < (B : ℚ) := by linarith
    have := Int.cast_lt.mp hb
    omega

/-- `roundTo` keeps values inside [0, 1]. -/
theorem roundTo_mem_unit (d : ℕ) (q : ℚ) (h0 : 0 ≤ q) (h1 : q ≤ 1) :
    0 ≤ roundTo d q ∧ roundTo d q ≤ 1 := by
  unfold roundTo
  constructor
  · have := roundHalfEven_nonneg (q * 10 ^ d) (by positivity)
    positivity
  · rw [div_le_one (by positivity)]
    have hb : q * 10 ^ d ≤ ((10 ^ d : ℤ) : ℚ) := by
      push_cast
      nlinarith [pow_pos (show (0:ℚ) < 10 by norm_num) d]
    have := roundHalfEven_le_of_le (q * 10 ^ d) (10 ^ d) hb
    calc ((roundHalfEven (q * 10 ^ d) : ℤ) : ℚ) ≤ ((10 ^ d : ℤ) : ℚ) := by exact_mod_cast this
      _ = 10 ^ d := by push_cast; ring

/-- Rounding zero gives zero. -/
theorem roundTo_zero (d : ℕ) : roundTo d 0 = 0 := by
  unfold roundTo roundHalfEven
  norm_num

/-- The top category chosen from the three scores is one of the three
category names, never "normal". -/
theorem top_of_scores_ne_normal (d s e : ℚ) :
    (top_of_scores d s e).1 ≠ "normal" := by
  unfold top_of_scores
  split_ifs <;> simp

/-! ## Claim theorems -/

/-- C1: for every pre-confirmation candidate request (any source address,
recommended action, current and predicted confidence, alert level) and any
configured gate values, the safety gate approves if and only if all four
conditions hold — whitelisted action, alert level exactly early_warning,
predicted confidence at or above the pre-emptive gate, current confidence
below the confirmed threshold; any request whose alert level is not
early_warning is always rejected; and every rejection carries a nonempty
structured reason rather than an error. -/
theorem C1_safety_gate_iff (ip rec_action : String) (cur pred : ℚ)
    (alert : String) (pg cg : ℚ) :
    ((preemptive_safety_gate ip rec_action cur pred alert pg cg).1 = true ↔
      ((rec_action = "rate_limit" ∨ rec_action = "elevated_monitor") ∧
        alert = "early_warning" ∧ pred ≥ pg ∧ cur < cg)) ∧
    (alert ≠ "early_warning" →
      (preemptive_safety_gate ip rec_action cur pred alert pg cg).1 = false) ∧
    ((preemptive_safety_gate ip rec_action cur pred alert pg cg).1 = false →
      (preemptive_safety_gate ip rec_action cur pred alert pg cg).2 ≠ "") := by
  unfold preemptive_safety_gate
  split_ifs with h1 h2 h3 h4
  · exact ⟨iff_of_false id (fun hr => h2 hr.2.1), fun _ => rfl, fun _ => by decide⟩
  · exact ⟨iff_of_false id (fun hr => absurd hr.2.2.1 (not_le.mpr h3)),
      fun _ => rfl, fun _ => by decide⟩
  · exact ⟨iff_of_false id (fun hr => absurd hr.2.2.2 (not_lt.mpr h4)),
      fun _ => rfl, fun _ => by decide⟩
  · exact ⟨iff_of_true rfl ⟨h1, not_not.mp h2, not_lt.mp h3, not_le.mp h4⟩,
      fun hne => absurd (not_not.mp h2) hne, fun hf => absurd hf (by decide)⟩
  · exact ⟨iff_of_false id (fun hr => h1 hr.1), fun _ => rfl, fun _ => by decide⟩

/-- C2: at the failing input — a verdict carrying the explicit recommended
action rate_limit together with attack category DDoS — the decision engine
takes block, not the explicitly recommended rate_limit, because each
branch tests the category fallback with an `or` in the same condition as
the higher-priority explicit action, contradicting the claim (and the
NOTE comment in the source) that an explicit recommendation always wins. -/
theorem C2_explicit_recommendation_loses :
    decide_action "rate_limit" "DDoS" = "block" ∧
      decide_action "rate_limit" "DDoS" ≠ "rate_limit" := by
  constructor <;> decide

/-- C4 counterexample: an outcome recorded with action rate_limit — an
action other than monitor — has inferred was_threat false, refuting the
claim that was_threat is true whenever the action differs from monitor. -/
theorem C4_cex_rate_limit_not_threat :
    (record_outcome "10.0.0.7" zero_stats "DDoS" (1/2) "rate_limit").was_threat
        = false ∧
      "rate_limit" ≠ "monitor" := by
  constructor <;> decide

/-- C4 (amended): a recorded OutcomeRecord has inferred was_threat true if
and only if its action_taken is block, redirect_to_honeypot or quarantine;
every other action — including rate_limit and elevated_monitor — yields
was_threat false. -/
theorem C4_was_threat_iff (ip : String) (st : TrafficStats)
    (attack_ty : String) (conf : ℚ) (act : String) (es : Bool) :
    (record_outcome ip st attack_ty conf act es).was_threat = true ↔
      (act = "block" ∨ act = "redirect_to_honeypot" ∨ act = "quarantine") := by
  simp [record_outcome, infer_was_threat]

/-- C3: for every pair of current and predicted confidences and any
threshold configuration, the alert-level classification follows the
decision table read in priority order (confirmed, early_warning, elevated,
normal — exactly as the source if-chain evaluates it), and the four row
conditions form a total, mutually exclusive partition of the
(current, predicted) confidence space: exactly one of them holds for
every pair. -/
theorem C3_alert_level_table (cur pred ct ewt : ℚ) :
    (rolling_alert_level cur pred ct ewt = "confirmed" ↔
      alert_confirmed_cond cur pred ct ewt) ∧
    (rolling_alert_level cur pred ct ewt = "early_warning" ↔
      alert_early_cond cur pred ct ewt) ∧
    (rolling_alert_level cur pred ct ewt = "elevated" ↔
      alert_elevated_cond cur pred ct ewt) ∧
    (rolling_alert_level cur pred ct ewt = "normal" ↔
      alert_normal_cond cur pred ct ewt) ∧
    ((alert_confirmed_cond cur pred ct ewt ∧ ¬ alert_early_cond cur pred ct ewt ∧
        ¬ alert_elevated_cond cur pred ct ewt ∧ ¬ alert_normal_cond cur pred ct ewt) ∨
      (¬ alert_confirmed_cond cur pred ct ewt ∧ alert_early_cond cur pred ct ewt ∧
        ¬ alert_elevated_cond cur pred ct ewt ∧ ¬ alert_normal_cond cur pred ct ewt) ∨
      (¬ alert_confirmed_cond cur pred ct ewt ∧ ¬ alert_early_cond cur pred ct ewt ∧
        alert_elevated_cond cur pred ct ewt ∧ ¬ alert_normal_cond cur pred ct ewt) ∨
      (¬ alert_confirmed_cond cur pred ct ewt ∧ ¬ alert_early_cond cur pred ct ewt ∧
        ¬ alert_elevated_cond cur pred ct ewt ∧ alert_normal_cond cur pred ct ewt)) := by
  simp only [rolling_alert_level, alert_confirmed_cond, alert_early_cond,
    alert_elevated_cond, alert_normal_cond]
  split_ifs with h1 h2 h3
  · exact ⟨iff_of_true rfl h1,
      iff_of_false (by decide) (fun hc => absurd h1 (not_le.mpr hc.1)),
      iff_of_false (by decide) (fun hc => hc.1 h1),
      iff_of_false (by decide) (fun hc => hc.1 h1),
      Or.inl ⟨h1, fun hc => absurd h1 (not_le.mpr hc.1),
        fun hc => hc.1 h1, fun hc => hc.1 h1⟩⟩
  · exact ⟨iff_of_false (by decide) (fun hc => h1 hc),
      iff_of_true rfl ⟨not_le.mp h1, h2⟩,
      iff_of_false (by decide) (fun hc => hc.2.1 ⟨not_le.mp h1, h2⟩),
      iff_of_false (by decide) (fun hc => hc.2.1 ⟨not_le.mp h1, h2⟩),
      Or.inr (Or.inl ⟨h1, ⟨not_le.mp h1, h2⟩,
        fun hc => hc.2.1 ⟨not_le.mp h1, h2⟩,
        fun hc => hc.2.1 ⟨not_le.mp h1, h2⟩⟩)⟩
  · exact ⟨iff_of_false (by decide) (fun hc => h1 hc),
      iff_of_false (by decide) (fun hc => h2 hc.2),
      iff_of_true rfl ⟨h1, fun hc => h2 hc.2, h3⟩,
      iff_of_false (by decide) (fun hc => hc.2.2 h3),
      Or.inr (Or.inr (Or.inl ⟨h1, fun hc => h2 hc.2,
        ⟨h1, fun hc => h2 hc.2, h3⟩, fun hc => hc.2.2 h3⟩))⟩
  · exact ⟨iff_of_false (by decide) (fun hc => h1 hc),
      iff_of_false (by decide) (fun hc => h2 hc.2),
      iff_of_false (by decide) (fun hc => h3 hc.2.2),
      iff_of_true rfl ⟨h1, fun hc => h2 hc.2, h3⟩,
      Or.inr (Or.inr (Or.inr ⟨h1, fun hc => h2 hc.2,
        fun hc => h3 hc.2.2, ⟨h1, fun hc => h2 hc.2, h3⟩⟩))⟩

/-- C9: the Monte-Carlo estimator satisfies, for every statistics record,
every threshold set and every draw sequence: the top threat is "normal"
exactly when the top confidence is 0; the top confidence is never strictly
between 0 and the 0.10 floor; and a "normal" top threat always carries the
recommended action "monitor". -/
theorem C9_normal_iff_conf_zero (s : TrafficStats) (th : Thresholds)
    (noise : List TrialNoise) :
    ((monte_carlo_estimate s th noise).top_threat = "normal" ↔
      (monte_carlo_estimate s th noise).top_confidence = 0) ∧
    ¬ (0 < (monte_carlo_estimate s th noise).top_confidence ∧
        (monte_carlo_estimate s th noise).top_confidence < 1/10) ∧
    ((monte_carlo_estimate s th noise).top_threat = "normal" →
      (monte_carlo_estimate s th noise).recommended_action = "monitor") := by
  simp only [monte_carlo_estimate]
  split_ifs with h
  · exact ⟨iff_of_true rfl rfl, fun hc => absurd hc.1 (lt_irrefl 0), fun _ => rfl⟩
  · refine ⟨iff_of_false (top_of_scores_ne_normal _ _ _) (fun h0 => h ?_),
      fun hc => h hc.2, fun hn => absurd hn (top_of_scores_ne_normal _ _ _)⟩
    have h0 : (top_of_scores ((noise.countP (ddos_fires s th) : ℚ) / (noise.length : ℚ))
        ((noise.countP (scan_fires s th) : ℚ) / (noise.length : ℚ))
        ((noise.countP (exfil_fires s th) : ℚ) / (noise.length : ℚ))).2 = 0 := h0
    rw [h0]
    norm_num

/-- C10: for every belief history whose entries carry confidences in
[0, 1] (the invariant the data model guarantees for Monte-Carlo
confidences), the trend extrapolation returns a predicted confidence in
[0, 1]; the empty history returns slope 0, direction "stable" and
predicted confidence 0; and a single-entry history returns slope 0,
direction "stable" and predicted confidence equal to that entry's top
confidence. -/
theorem C10_compute_trend_props (history : List HistEntry)
    (h : history.all hist_conf_in_range = true) :
    (0 ≤ (compute_trend history).predicted_confidence ∧
      (compute_trend history).predicted_confidence ≤ 1) ∧
    (history = [] →
      compute_trend history =
        { trend_direction := "stable", confidence_slope := 0,
          predicted_confidence := 0 }) ∧
    (history.length = 1 →
      compute_trend history =
        { trend_direction := "stable", confidence_slope := 0,
          predicted_confidence := (history.headD ⟨0, 0⟩).top_confidence }) := by
  rcases history with _ | ⟨a, _ | ⟨b, t⟩⟩
  · refine ⟨by constructor <;> norm_num [compute_trend], fun _ => rfl, ?_⟩
    intro hl
    exact absurd hl (by simp)
  · have ha : 0 ≤ a.top_confidence ∧ a.top_confidence ≤ 1 := by
      simpa [hist_conf_in_range, decide_eq_true_eq] using h
    refine ⟨ha, ?_, fun _ => rfl⟩
    intro he
    exact absurd he (by simp)
  · refine ⟨?_, ?_, ?_⟩
    · exact roundTo_mem_unit 4 _ (le_max_left _ _)
        (max_le (by norm_num) (min_le_left _ _))
    · intro he
      exact absurd he (by simp)
    · intro hl
      simp only [List.length_cons] at hl
      omega

/-- All-zero confidences drive the running maximum of node confidences to
zero. -/
theorem foldl_max_conf_eq_zero (rest : List GraphNode) :
    ∀ a : ℚ, a = 0 → rest.all node_conf_zero = true →
      rest.foldl (fun acc nd => max acc nd.confidence) a = 0 := by
  induction rest with
  | nil => intro a ha _; simpa using ha
  | cons nd tl ih =>
    intro a ha hall
    simp only [List.all_cons, Bool.and_eq_true] at hall
    have hnd : nd.confidence = 0 := by
      simpa [node_conf_zero, decide_eq_true_eq] using hall.1
    simp only [List.foldl_cons]
    exact ih _ (by rw [ha, hnd]; simp) hall.2

/-- C7 counterexample: a graph with a single confident node (confidence
0.8), no edges and no simulation trials — so avg_spread is 0 — is
assessed at risk level "medium", not "none": with zero spread the risk
score is 0.6 times the maximum confidence, here 0.48, which crosses the
0.40 medium threshold regardless of the absent edges. -/
theorem C7_cex_confident_node_zero_spread :
    (aggregate_risk [⟨"10.0.0.1", "DDoS", 8/10⟩] []).avg_spread = 0 ∧
      (aggregate_risk [⟨"10.0.0.1", "DDoS", 8/10⟩] []).risk_level = "medium" := by
  constructor <;>
    norm_num [aggregate_risk, roundTo, roundHalfEven, min_def,
      RISK_HIGH, RISK_MEDIUM]

/-- C7 (amended): a risk assessment computed with avg_spread = 0 (here:
no simulation trials, as with an edgeless graph that was never simulated)
has risk level "none" when every node confidence is 0; its risk score —
round(min(1, 0.6 max_confidence + 0.4 avg_spread), 4) — is then exactly 0.
With a nonzero maximum confidence the level can instead be low, medium or
high, since zero spread leaves risk_score = 0.6 max_confidence. -/
theorem C7_zero_conf_zero_spread_none (nodes : List GraphNode)
    (h : nodes.all node_conf_zero = true) :
    (aggregate_risk nodes []).risk_level = "none" ∧
      (aggregate_risk nodes []).risk_score = 0 := by
  rcases nodes with _ | ⟨n0, rest⟩
  · exact ⟨rfl, rfl⟩
  · simp only [List.all_cons, Bool.and_eq_true] at h
    have h0 : n0.confidence = 0 := by
      simpa [node_conf_zero, decide_eq_true_eq] using h.1
    have hmax : rest.foldl (fun acc nd => max acc nd.confidence) n0.confidence = 0 :=
      foldl_max_conf_eq_zero rest n0.confidence h0 h.2
    simp only [aggregate_risk]
    rw [hmax]
    constructor <;>
      norm_num [roundTo, roundHalfEven, min_def, RISK_HIGH, RISK_MEDIUM]

/-- C7 witness: the amended theorem applied to a concrete two-node
zero-confidence graph. -/
theorem C7_zero_conf_witness :
    ([⟨"10.0.0.1", "DDoS", 0⟩, ⟨"10.0.0.2", "PortScan", 0⟩] :
        List GraphNode).all node_conf_zero = true ∧
    (aggregate_risk [⟨"10.0.0.1", "DDoS", 0⟩, ⟨"10.0.0.2", "PortScan", 0⟩] []).risk_level
        = "none" ∧
      (aggregate_risk [⟨"10.0.0.1", "DDoS", 0⟩, ⟨"10.0.0.2", "PortScan", 0⟩] []).risk_score
        = 0 :=
  ⟨by norm_num [node_conf_zero],
    C7_zero_conf_zero_spread_none _ (by norm_num [node_conf_zero])⟩

/-- C10 witness: the trend theorem applied to a concrete three-entry
rising history. -/
theorem C10_compute_trend_witness :
    c10_history.all hist_conf_in_range = true ∧
      (0 ≤ (compute_trend c10_history).predicted_confidence ∧
        (compute_trend c10_history).predicted_confidence ≤ 1) :=
  ⟨by norm_num [c10_history, hist_conf_in_range],
    (C10_compute_trend_props c10_history
      (by norm_num [c10_history, hist_conf_in_range])).1⟩

/-- C5 counterexample: the default genome lies within the declared bounds,
but the registered Gaussian mutation operator (no clamping decorator is
installed in `_setup_deap`) applied to it with a draw of +0.5 on the
confidence gene yields gene value 1.1, outside that gene's declared
[0.30, 0.90] bounds — so genomes are not clamped after every mutation. -/
theorem C5_cex_mutation_escapes_bounds :
    genome_in_bounds DEFAULT_GENOME = true ∧
    mut_gaussian DEFAULT_GENOME [false, false, false, false, false, true]
        [0, 0, 0, 0, 0, 1/2] = [500, 300, 20, 35/10, 500000, 11/10] ∧
    genome_in_bounds (mut_gaussian DEFAULT_GENOME
        [false, false, false, false, false, true] [0, 0, 0, 0, 0, 1/2]) = false := by
  refine ⟨?_, ?_, ?_⟩ <;>
    norm_num [genome_in_bounds, mut_gaussian, GENE_BOUNDS, DEFAULT_GENOME,
      List.zipWith, List.zip, decide_eq_true_eq]

/-- Clamping one gene into a nonempty [lo, hi] interval lands inside it. -/
theorem clamp_pair_bounds (lo hi x : ℚ) (hlh : lo ≤ hi) :
    lo ≤ max lo (min hi x) ∧ max lo (min hi x) ≤ hi :=
  ⟨le_max_left _ _, max_le hlh (min_le_left _ _)⟩

/-- C5 (amended): intermediate genomes are not clamped after each
mutation or crossover (the counterexample exhibits an unclamped mutation
result outside bounds); what the code does guarantee is that
`_clamp_genome`, applied once to the final best genome before persisting,
puts every one of the 6 genes inside its declared [lo, hi] bounds. -/
theorem C5_clamp_genome_in_bounds (genome : List ℚ) (h : genome.length = 6) :
    genome_in_bounds (clamp_genome genome) = true ∧
      (clamp_genome genome).length = 6 := by
  rcases genome with _ | ⟨a, _ | ⟨b, _ | ⟨c, _ | ⟨d, _ | ⟨e, _ | ⟨f, _ | ⟨g, t⟩⟩⟩⟩⟩⟩⟩ <;>
      simp only [List.length_cons, List.length_nil] at h <;> try omega
  constructor
  · simp only [clamp_genome, genome_in_bounds, GENE_BOUNDS, List.zip,
      List.zipWith, List.map, List.all_cons, List.all_nil,
      Bool.and_eq_true, decide_eq_true_eq, and_true]
    exact ⟨clamp_pair_bounds _ _ _ (by norm_num),
      clamp_pair_bounds _ _ _ (by norm_num),
      clamp_pair_bounds _ _ _ (by norm_num),
      clamp_pair_bounds _ _ _ (by norm_num),
      clamp_pair_bounds _ _ _ (by norm_num),
      clamp_pair_bounds _ _ _ (by norm_num)⟩
  · rfl

/-- C5 witness: the clamp theorem applied to the default genome. -/
theorem C5_clamp_genome_witness :
    DEFAULT_GENOME.length = 6 ∧
      (genome_in_bounds (clamp_genome DEFAULT_GENOME) = true ∧
        (clamp_genome DEFAULT_GENOME).length = 6) :=
  ⟨by norm_num [DEFAULT_GENOME],
    C5_clamp_genome_in_bounds DEFAULT_GENOME (by norm_num [DEFAULT_GENOME])⟩

/-- A perfectly matching outcome set yields zero false negatives and zero
false positives in the fitness tally. -/
theorem tally_no_errors (genome : List ℚ) :
    ∀ pairs : List (OutcomeSample × List TrialNoise),
      pairs.all (outcome_matches genome) = true →
      (tally_outcomes genome pairs).2.1 = 0 ∧
        (tally_outcomes genome pairs).2.2.2 = 0 := by
  intro pairs
  induction pairs with
  | nil => intro _; exact ⟨rfl, rfl⟩
  | cons p rest ih =>
    intro hall
    simp only [List.all_cons, Bool.and_eq_true] at hall
    obtain ⟨hm, hrest⟩ := hall
    obtain ⟨hfn, hfp⟩ := ih hrest
    cases hstats : p.1.stats with
    | none => simpa [tally_outcomes, hstats] using ⟨hfn, hfp⟩
    | some s =>
      have hm' : genome_detected genome s p.2 = p.1.was_threat := by
        simpa [outcome_matches, hstats] using hm
      rcases hb : p.1.was_threat <;> rcases hd : genome_detected genome s p.2 <;>
        simp_all [tally_outcomes, hstats]

/-- An outcome set with at least one stats-bearing, correctly classified
outcome contributes at least one true positive or true negative. -/
theorem tally_pos (genome : List ℚ) :
    ∀ pairs : List (OutcomeSample × List TrialNoise),
      pairs.all (outcome_matches genome) = true →
      pairs.any outcome_has_stats = true →
      1 ≤ (tally_outcomes genome pairs).1 + (tally_outcomes genome pairs).2.2.1 := by
  intro pairs
  induction pairs with
  | nil => intro _ hany; simp at hany
  | cons p rest ih =>
    intro hall hany
    simp only [List.all_cons, Bool.and_eq_true] at hall
    obtain ⟨hm, hrest⟩ := hall
    simp only [List.any_cons, Bool.or_eq_true] at hany
    cases hstats : p.1.stats with
    | none =>
      have hany' : rest.any outcome_has_stats = true := by
        rcases hany with h | h
        · exact absurd h (by simp [outcome_has_stats, hstats])
        · exact h
      have := ih hrest hany'
      simpa [tally_outcomes, hstats] using this
    | some s =>
      have hm' : genome_detected genome s p.2 = p.1.was_threat := by
        simpa [outcome_matches, hstats] using hm
      rcases hb : p.1.was_threat <;> rcases hd : genome_detected genome s p.2 <;>
        simp_all [tally_outcomes, hstats] <;> omega

/-- C8 (amended): for every genome and every non-empty outcome set (at
least one outcome carries stats) on which the genome's predicted
detection matches the inferred ground truth on every outcome, the fitness
(TP+TN)/(TP+TN+2 FP+FN+eps) with eps = 1e-9 is strictly below 1.0 but
strictly above 1 - 1e-9; it is never exactly 1.0 because of the epsilon
guard in the denominator. -/
theorem C8_perfect_match_fitness (genome : List ℚ)
    (pairs : List (OutcomeSample × List TrialNoise))
    (hmatch : pairs.all (outcome_matches genome) = true)
    (hany : pairs.any outcome_has_stats = true) :
    1 - FIT_EPS < evaluate_genome genome pairs ∧
      evaluate_genome genome pairs < 1 := by
  obtain ⟨hfn, hfp⟩ := tally_no_errors genome pairs hmatch
  have hpos := tally_pos genome pairs hmatch hany
  have hS : (1 : ℚ) ≤
      (((tally_outcomes genome pairs).1 + (tally_outcomes genome pairs).2.2.1 : ℕ) : ℚ) := by
    exact_mod_cast hpos
  simp only [evaluate_genome]
  rw [hfn, hfp]
  set S : ℚ :=
    (((tally_outcomes genome pairs).1 + (tally_outcomes genome pairs).2.2.1 : ℕ) : ℚ) with hSdef
  norm_num [FIT_EPS]
  constructor
  · rw [lt_div_iff₀ (by linarith)]
    nlinarith [hS]
  · rw [div_lt_one (by linarith)]
    linarith

/-- On the all-zero statistics snapshot none of the three detection rules
fires under the default-genome thresholds, for the zero draw. -/
theorem c8_rules_fire_false :
    ddos_fires zero_stats (genome_to_thresholds DEFAULT_GENOME) zero_trial_noise = false ∧
    scan_fires zero_stats (genome_to_thresholds DEFAULT_GENOME) zero_trial_noise = false ∧
    exfil_fires zero_stats (genome_to_thresholds DEFAULT_GENOME) zero_trial_noise = false := by
  refine ⟨?_, ?_, ?_⟩ <;>
    simp [ddos_fires, scan_fires, exfil_fires, noisy, zero_stats, zero_trial_noise,
      genome_to_thresholds, DEFAULT_GENOME, decide_eq_false_iff_not]

/-- Replaying the all-zero snapshot through a one-trial Monte-Carlo
estimate with default-genome thresholds collapses to "normal" with all
confidences 0. -/
theorem c8_mc_eval :
    monte_carlo_estimate zero_stats (genome_to_thresholds DEFAULT_GENOME)
        [zero_trial_noise] =
      { ddos_confidence := 0, port_scan_confidence := 0,
        exfiltration_confidence := 0, top_threat := "normal",
        top_confidence := 0, recommended_action := "monitor" } := by
  obtain ⟨h1, h2, h3⟩ := c8_rules_fire_false
  norm_num [monte_carlo_estimate, top_of_scores, List.countP, List.countP.go,
    h1, h2, h3, threat_action]
  decide

/-- The default genome does not flag the all-zero snapshot. -/
theorem c8_detected_eval :
    genome_detected DEFAULT_GENOME zero_stats [zero_trial_noise] = false := by
  have hc : confidence_from_genome DEFAULT_GENOME = 6/10 := by
    norm_num [confidence_from_genome, DEFAULT_GENOME]
  simp [genome_detected, c8_mc_eval, hc]

/-- The single zero-stats outcome tallies as one true negative. -/
theorem c8_tally_eval :
    tally_outcomes DEFAULT_GENOME c8_pairs = (0, 0, 1, 0) := by
  simp [tally_outcomes, c8_pairs, c8_detected_eval]

/-- The zero-stats outcome set is a perfect-classification set. -/
theorem c8_premises_hold :
    c8_pairs.all (outcome_matches DEFAULT_GENOME) = true ∧
      c8_pairs.any outcome_has_stats = true := by
  constructor
  · simp [c8_pairs, outcome_matches, c8_detected_eval]
  · simp [c8_pairs, outcome_has_stats]

/-- C8 counterexample: on a concrete non-empty outcome set classified
perfectly by the default genome (one all-zero-stats non-threat outcome,
correctly not detected), the fitness is (0+1)/(0+1+1e-9), which is not
exactly 1.0 — refuting the claim that a perfect classifier has fitness
exactly 1.0. -/
theorem C8_cex_perfect_fitness_not_one :
    c8_pairs.all (outcome_matches DEFAULT_GENOME) = true ∧
    c8_pairs.any outcome_has_stats = true ∧
    evaluate_genome DEFAULT_GENOME c8_pairs ≠ 1 := by
  refine ⟨c8_premises_hold.1, c8_premises_hold.2, ?_⟩
  norm_num [evaluate_genome, c8_tally_eval, FIT_EPS]

/-- C8 witness: the amended fitness bounds applied to the concrete
perfect one-outcome set. -/
theorem C8_perfect_match_witness :
    c8_pairs.all (outcome_matches DEFAULT_GENOME) = true ∧
    c8_pairs.any outcome_has_stats = true ∧
    (1 - FIT_EPS < evaluate_genome DEFAULT_GENOME c8_pairs ∧
      evaluate_genome DEFAULT_GENOME c8_pairs < 1) :=
  ⟨c8_premises_hold.1, c8_premises_hold.2,
    C8_perfect_match_fitness DEFAULT_GENOME c8_pairs
      c8_premises_hold.1 c8_premises_hold.2⟩

/-- Every adjacency entry of `ip` is an endpoint of some edge. -/
theorem adj_of_mem (edges : List GraphEdge) (ip nb : String) (w : ℚ)
    (h : (nb, w) ∈ adj_of edges ip) :
    ∃ e ∈ edges, nb = e.dst ∨ nb = e.src := by
  simp only [adj_of, List.mem_flatten, List.mem_map] at h
  obtain ⟨l, ⟨e, he, rfl⟩, hmem⟩ := h
  refine ⟨e, he, ?_⟩
  rcases List.mem_append.mp hmem with h' | h'
  · split_ifs at h' with hs
    · simp only [List.mem_singleton, Prod.mk.injEq] at h'
      exact Or.inl h'.1
    · simp at h'
  · split_ifs at h' with hs
    · simp only [List.mem_singleton, Prod.mk.injEq] at h'
      exact Or.inr h'.1
    · simp at h'

/-- One neighbour scan appends the same freshly visited addresses to both
the visited set and the next-frontier accumulator: the additions are
previously unvisited, drawn from the scanned neighbour list, and pairwise
distinct. -/
theorem visit_neighbors_spec (nbrs : List (String × ℚ)) :
    ∀ visited next_acc noise,
      ∃ added rest,
        visit_neighbors visited next_acc nbrs noise =
          (visited ++ added, next_acc ++ added, rest) ∧
        (∀ x ∈ added, x ∉ visited ∧ ∃ w, (x, w) ∈ nbrs) ∧
        added.Nodup := by
  induction nbrs with
  | nil =>
    intro visited next_acc noise
    exact ⟨[], noise, by simp [visit_neighbors], by simp, List.nodup_nil⟩
  | cons nb rest ih =>
    intro visited next_acc noise
    by_cases hmem : nb.1 ∈ visited
    · obtain ⟨added, rst, heq, hprop, hnd⟩ := ih visited next_acc noise
      refine ⟨added, rst, by simpa [visit_neighbors, hmem] using heq, ?_, hnd⟩
      intro x hx
      obtain ⟨hnv, w, hw⟩ := hprop x hx
      exact ⟨hnv, w, List.mem_cons_of_mem _ hw⟩
    · cases noise with
      | nil =>
        obtain ⟨added, rst, heq, hprop, hnd⟩ := ih visited next_acc []
        refine ⟨added, rst, by simpa [visit_neighbors, hmem] using heq, ?_, hnd⟩
        intro x hx
        obtain ⟨hnv, w, hw⟩ := hprop x hx
        exact ⟨hnv, w, List.mem_cons_of_mem _ hw⟩
      | cons gr ns =>
        by_cases hp : gr.2 < min 1 (nb.2 + gr.1)
        · obtain ⟨added, rst, heq, hpr, hnd⟩ :=
            ih (visited ++ [nb.1]) (next_acc ++ [nb.1]) ns
          refine ⟨nb.1 :: added, rst, ?_, ?_, ?_⟩
          · have hstep : visit_neighbors visited next_acc (nb :: rest) (gr :: ns) =
                visit_neighbors (visited ++ [nb.1]) (next_acc ++ [nb.1]) rest ns := by
              simp [visit_neighbors, hmem, hp]
            rw [hstep, heq]
            simp
          · intro x hx
            rcases List.mem_cons.mp hx with rfl | hx'
            · exact ⟨hmem, nb.2, by simp⟩
            · obtain ⟨hnv, w, hw⟩ := hpr x hx'
              exact ⟨fun hc => hnv (List.mem_append_left _ hc), w,
                List.mem_cons_of_mem _ hw⟩
          · refine List.nodup_cons.mpr ⟨fun hc => ?_, hnd⟩
            exact (hpr nb.1 hc).1 (List.mem_append_right _ (by simp))
        · obtain ⟨added, rst, heq, hpr, hnd⟩ := ih visited next_acc ns
          refine ⟨added, rst, by simpa [visit_neighbors, hmem, hp] using heq, ?_, hnd⟩
          intro x hx
          obtain ⟨hnv, w, hw⟩ := hpr x hx
          exact ⟨hnv, w, List.mem_cons_of_mem _ hw⟩

/-- One whole-frontier pass appends a block of fresh, pairwise-distinct
addresses — all of them edge endpoints — to the visited set, and that
block is exactly the next frontier. -/
theorem expand_frontier_spec (edges : List GraphEdge) (frontier : List String) :
    ∀ visited noise,
      ∃ added rest,
        expand_frontier edges visited frontier noise = (visited ++ added, added, rest) ∧
        (∀ x ∈ added, x ∉ visited ∧ ∃ e ∈ edges, x = e.dst ∨ x = e.src) ∧
        added.Nodup := by
  induction frontier with
  | nil =>
    intro visited noise
    exact ⟨[], noise, by simp [expand_frontier], by simp, List.nodup_nil⟩
  | cons node rest ih =>
    intro visited noise
    obtain ⟨a1, n1, h1eq, h1pr, h1nd⟩ :=
      visit_neighbors_spec (adj_of edges node) visited [] noise
    obtain ⟨a2, n2, h2eq, h2pr, h2nd⟩ := ih (visited ++ a1) n1
    refine ⟨a1 ++ a2, n2, ?_, ?_, ?_⟩
    · simp only [expand_frontier, h1eq]
      rw [h2eq]
      simp
    · intro x hx
      rcases List.mem_append.mp hx with hx1 | hx2
      · obtain ⟨hnv, w, hw⟩ := h1pr x hx1
        exact ⟨hnv, adj_of_mem edges node x w hw⟩
      · obtain ⟨hnv, he⟩ := h2pr x hx2
        exact ⟨fun hc => hnv (List.mem_append_left _ hc), he⟩
    · exact List.Nodup.append h1nd h2nd
        (fun x hx1 hx2 => (h2pr x hx2).1 (List.mem_append_right _ hx1))

/-- The step counter returned by the trial loop never exceeds the number
of distinct node addresses: every continuing iteration strictly grows the
visited set, which stays inside the address list. -/
theorem sim_loop_le (edges : List GraphEdge) (ips : List String)
    (hedges : ∀ e ∈ edges, e.src ∈ ips ∧ e.dst ∈ ips) :
    ∀ fuel visited frontier steps noise,
      ips.length + 1 - steps ≤ fuel →
      visited.Nodup → (∀ x ∈ visited, x ∈ ips) →
      (frontier.isEmpty = true → steps ≤ ips.length) →
      (frontier.isEmpty = false → steps + 1 ≤ visited.length) →
      (sim_loop edges ips.length visited frontier steps noise).1 ≤ ips.length := by
  intro fuel
  induction fuel with
  | zero =>
    intro visited frontier steps noise hfuel hnd hsub hemp hne
    rw [sim_loop]
    by_cases hfe : frontier.isEmpty = true
    · rw [if_pos hfe]
      exact hemp hfe
    · have hfe' : frontier.isEmpty = false := by simpa using hfe
      have hlen := hne hfe'
      have hcard : visited.length ≤ ips.length :=
        (List.subperm_of_subset hnd (fun x hx => hsub x hx)).length_le
      exact absurd hfuel (by omega)
  | succ fuel ih =>
    intro visited frontier steps noise hfuel hnd hsub hemp hne
    rw [sim_loop]
    by_cases hfe : frontier.isEmpty = true
    · rw [if_pos hfe]
      exact hemp hfe
    · have hfe' : frontier.isEmpty = false := by simpa using hfe
      have hlen := hne hfe'
      have hcard : visited.length ≤ ips.length :=
        (List.subperm_of_subset hnd (fun x hx => hsub x hx)).length_le
      rw [if_neg hfe, dif_neg (show ¬ ips.length < steps + 1 by omega)]
      obtain ⟨added, rest, heq, hpr, hndadd⟩ :=
        expand_frontier_spec edges frontier visited noise
      rw [heq]
      apply ih
      · omega
      · exact List.Nodup.append hnd hndadd
          (fun x hx1 hx2 => (hpr x hx2).1 hx1)
      · intro x hx
        rcases List.mem_append.mp hx with hx | hx
        · exact hsub x hx
        · obtain ⟨e, he, hor⟩ := (hpr x hx).2
          rcases hor with rfl | rfl
          · exact (hedges e he).2
          · exact (hedges e he).1
      · intro _
        omega
      · intro hane
        have hpos : 1 ≤ added.length := by
          rcases added with _ | ⟨a0, arest⟩
          · simp at hane
          · simp only [List.length_cons]
            omega
        simp only [List.length_append]
        omega

/-- The last element (with default) of a nonempty list is a member. -/
theorem getLastD_mem_of_ne_nil (l : List String) (d : String) (h : l ≠ []) :
    l.getLastD d ∈ l := by
  induction l generalizing d with
  | nil => exact absurd rfl h
  | cons a t ih =>
    rw [List.getLastD_cons]
    rcases t with _ | ⟨b, t'⟩
    · simp [List.getLastD]
    · exact List.mem_cons_of_mem _ (ih a (by simp))

/-- The accumulating scan of the entry picker only returns scanned
addresses or the fallback. -/
theorem pick_entry_go_mem (fallback : String) (ips : List String)
    (hf : fallback ∈ ips) :
    ∀ l : List (String × ℚ), (∀ p ∈ l, p.1 ∈ ips) → ∀ r acc,
      pick_entry_go fallback l r acc ∈ ips := by
  intro l
  induction l with
  | nil => intro _ r acc; simpa [pick_entry_go] using hf
  | cons p rest ih =>
    intro hl r acc
    rw [pick_entry_go]
    split_ifs
    · exact hl p (by simp)
    · exact ih (fun q hq => hl q (List.mem_cons_of_mem _ hq)) r (acc + p.2)

/-- The weighted entry picker always returns an address of the node
list. -/
theorem pick_entry_mem (ips : List String) (confs : List ℚ) (u : ℚ)
    (hne : ips ≠ []) : pick_entry ips confs u ∈ ips := by
  unfold pick_entry
  apply pick_entry_go_mem
  · exact getLastD_mem_of_ne_nil ips "" hne
  · intro p hp
    exact (List.of_mem_zip hp).1

/-- C6: for every attack graph — any node set with distinct addresses and
any edge set over those nodes, cycles included — and every randomness
sequence, every propagation-simulation trial terminates (the embedded
loop is total) and its recorded step count path_length never exceeds the
graph's node count. -/
theorem C6_propagation_step_cap (nodes : List GraphNode) (edges : List GraphEdge)
    (rnd : List (ℚ × List (ℚ × ℚ)))
    (hnd : (nodes.map GraphNode.ip).Nodup)
    (hwf : edges_well_formed nodes edges = true) :
    (run_propagation_simulation nodes edges rnd).all
      (path_len_ok nodes.length) = true := by
  unfold run_propagation_simulation
  split_ifs with hemp
  · rfl
  · rw [List.all_eq_true]
    intro r hr
    rw [List.mem_map] at hr
    obtain ⟨tr, htr, rfl⟩ := hr
    unfold path_len_ok run_trial
    rw [decide_eq_true_eq]
    have hips : nodes.map GraphNode.ip ≠ [] := by
      rcases nodes with _ | ⟨n0, rest⟩
      · exact absurd rfl hemp
      · simp
    have hentry : pick_entry (nodes.map GraphNode.ip)
        (nodes.map GraphNode.confidence) tr.1 ∈ nodes.map GraphNode.ip :=
      pick_entry_mem _ _ _ hips
    have hedges : ∀ e ∈ edges,
        e.src ∈ nodes.map GraphNode.ip ∧ e.dst ∈ nodes.map GraphNode.ip := by
      intro e he
      have := List.all_eq_true.mp hwf e he
      simpa [decide_eq_true_eq] using this
    have hlen : (nodes.map GraphNode.ip).length = nodes.length :=
      List.length_map _ _
    rw [← hlen]
    apply sim_loop_le edges (nodes.map GraphNode.ip) hedges
      ((nodes.map GraphNode.ip).length + 1) _ _ 0 tr.2
    · omega
    · exact List.nodup_singleton _
    · intro x hx
      rcases List.mem_singleton.mp hx with rfl
      exact hentry
    · intro hfe
      simp at hfe
    · intro _
      simp

/-- C6 witness: the step-cap theorem applied to a concrete three-node
cyclic graph with one always-propagating trial. -/
theorem C6_propagation_witness :
    (c6_nodes.map GraphNode.ip).Nodup ∧
    edges_well_formed c6_nodes c6_edges = true ∧
    (run_propagation_simulation c6_nodes c6_edges c6_rnd).all
      (path_len_ok c6_nodes.length) = true :=
  ⟨by decide, by decide,
    C6_propagation_step_cap c6_nodes c6_edges c6_rnd (by decide) (by decide)⟩
